import Mathlib

/-
Verification of the DNS-over-HTTPS worker codec (CF-DoH-Lite).

The repository ships three concatenated variants of the worker in 源码.js
(referred to below as variant 1: lines 1-372, variant 2: lines 374-762,
variant 3: lines 764-1233), plus a pure reverse proxy in dns-proxy.js and a
caching variant in src/unnamed/part_000 (whose codec functions coincide with
variant 1).  Buffers (JS Uint8Array) are modelled as lists of naturals whose
entries are bytes (< 256); `bget` models a JS indexed read `a[i]` in a numeric
context, where an out-of-range read yields `undefined`, which coerces to 0
under bitwise operations and under String.fromCharCode.  DataView reads, which
throw a RangeError when out of range, are modelled by `dvGetU16`/`dvGetU32`
returning `Except`.  JS functions that can recurse or loop without bound are
modelled with an explicit fuel parameter; a `none` result at every fuel value
proves the JS original does not terminate.
-/

/-- A JS Uint8Array response buffer: a list of byte values. -/
abbrev Buf := List Nat

/-- Indexed read `a[i]` in a numeric context: out-of-range gives `undefined`,
which coerces to 0 under the bitwise and char-code operations used here. -/
def bget (r : Buf) (i : Nat) : Nat := r.getD i 0

/-- Indexed read interpolated into a template string: out-of-range gives the
literal text "undefined". -/
def jsIdxStr (r : Buf) (i : Nat) : String :=
  match r.get? i with
  | some b => toString b
  | none => "undefined"

/-- Big-endian 16-bit read, used where the source reads through a DataView at
an in-range offset. -/
def getU16 (r : Buf) (i : Nat) : Nat := bget r i * 256 + bget r (i + 1)

/-- Big-endian 32-bit read at an in-range offset. -/
def getU32 (r : Buf) (i : Nat) : Nat :=
  ((bget r i * 256 + bget r (i + 1)) * 256 + bget r (i + 2)) * 256 + bget r (i + 3)

/-- DataView.getUint16: throws a RangeError (modelled as `Except.error`) when
the offset is negative or the two bytes do not fit in the buffer. -/
def dvGetU16 (r : Buf) (i : Int) : Except Unit Nat :=
  if i < 0 ∨ r.length < i.toNat + 2 then .error ()
  else .ok (getU16 r i.toNat)

/-- DataView.getUint32 with the same RangeError behaviour. -/
def dvGetU32 (r : Buf) (i : Int) : Except Unit Nat :=
  if i < 0 ∨ r.length < i.toNat + 4 then .error ()
  else .ok (getU32 r i.toNat)

/-- Label text: String.fromCharCode over the `len` bytes following the length
octet at `cur` (variants 1 and 3 read `response[currentOffset + i]`, i from 1
to length). -/
def labelAt (r : Buf) (cur len : Nat) : String :=
  String.mk ((List.range len).map (fun i => Char.ofNat (bget r (cur + 1 + i))))

/-- Split a character list at every occurrence of `sep`, as JS
`String.prototype.split` with a one-character separator: the empty string
splits to `[""]`, separators at the ends produce empty fields. -/
def splitOnChar (sep : Char) : List Char → List (List Char)
  | [] => [[]]
  | c :: rest =>
    if c = sep then [] :: splitOnChar sep rest
    else
      match splitOnChar sep rest with
      | h :: t => (c :: h) :: t
      | [] => [[c]]

/-- JS `s.split(sep)` for a one-character separator. -/
def jsSplit (s : String) (sep : Char) : List String :=
  (splitOnChar sep s.data).map String.mk

/-- JS `s.toUpperCase()` for ASCII text (`Char.toUpper` uppercases exactly
the ASCII range, which covers the record-type mnemonics involved). -/
def jsToUpper (s : String) : String := String.mk (s.data.map Char.toUpper)

/-!  Name Reader, variant 1 (源码.js lines 273-296, and the identical function
in src/unnamed/part_000 lines 431-454): a while loop over ordinary labels with
a recursive call on a compression pointer, guarded by `pointer >= currentOffset`.
The JS recursion is unbounded, so the model takes a fuel parameter, consumed
once per loop iteration and per recursive call; the outer `none` means the
fuel ran out, `some none` is the JS `null` return, and `some (some (n, o))`
is the JS `{name: n, nextOffset: o}`. -/

/-- Loop-and-recursion core of variant 1 `parseDnsName`, carrying the `parts`
array accumulated so far. -/
def pdn1 : Nat → Buf → Nat → List String → Option (Option (String × Nat))
  | 0, _, _, _ => none
  | fuel + 1, r, cur, parts =>
    if cur < r.length then
      let len := bget r cur
      if len = 0 then some (some (String.intercalate "." parts, cur + 1))
      else if len &&& 0xc0 = 0xc0 then
        if cur + 1 ≥ r.length then some none
        else
          let ptr := (len &&& 0x3f) * 256 + bget r (cur + 1)
          if ptr ≥ cur then some none
          else
            match pdn1 fuel r ptr [] with
            | none => none
            | some none => some (some (String.intercalate "." parts, cur + 2))
            | some (some (nm, _)) =>
                some (some (String.intercalate "." (parts ++ jsSplit nm '.'), cur + 2))
      else
        if cur + 1 + len > r.length then some none
        else pdn1 fuel r (cur + len + 1) (parts ++ [labelAt r cur len])
    else some (some (String.intercalate "." parts, cur))

/-- Variant 1 `parseDnsName` (源码.js 273-296). -/
def parseDnsName1 (fuel : Nat) (r : Buf) (off : Nat) : Option (Option (String × Nat)) :=
  pdn1 fuel r off []

/-- Variant 3 `parseDnsName` (源码.js 1178-1213): same recursive structure as
variant 1 but without the `pointer >= currentOffset` guard (its label bound
`currentOffset + length >= response.length` is the same condition as variant
1's `currentOffset + 1 + length > response.length`). -/
def pdn3 : Nat → Buf → Nat → List String → Option (Option (String × Nat))
  | 0, _, _, _ => none
  | fuel + 1, r, cur, parts =>
    if cur < r.length then
      let len := bget r cur
      if len = 0 then some (some (String.intercalate "." parts, cur + 1))
      else if len &&& 0xc0 = 0xc0 then
        if cur + 1 ≥ r.length then some none
        else
          match pdn3 fuel r ((len &&& 0x3f) * 256 + bget r (cur + 1)) [] with
          | none => none
          | some none => some (some (String.intercalate "." parts, cur + 2))
          | some (some (nm, _)) =>
              some (some (String.intercalate "." (parts ++ jsSplit nm '.'), cur + 2))
      else
        if cur + 1 + len > r.length then some none
        else pdn3 fuel r (cur + len + 1) (parts ++ [labelAt r cur len])
    else some (some (String.intercalate "." parts, cur))

/-- Variant 3 `parseDnsName` (源码.js 1178-1213). -/
def parseDnsName3 (fuel : Nat) (r : Buf) (off : Nat) : Option (Option (String × Nat)) :=
  pdn3 fuel r off []

/-- Variant 2 `parseDnsName` (源码.js 723-762): an iterative loop with a
`jumped` flag, a `finalOffset` initialized to -1, and a hard cap of 21
iterations (`if (loops++ > 20) break`), after which it returns whatever was
accumulated.  It never returns null; the fuel here is the source's own loop
counter, so the function is total. -/
def pdn2 : Nat → Buf → Nat → Bool → Int → List String → String × Int
  | 0, _, _, _, fin, parts => (String.intercalate "." parts, fin)
  | fuel + 1, r, cur, jumped, fin, parts =>
    if cur ≥ r.length then (String.intercalate "." parts, fin)
    else
      let len := bget r cur
      if len = 0 then
        (String.intercalate "." parts, if jumped then fin else (cur : Int) + 1)
      else if len &&& 0xc0 = 0xc0 then
        let fin' := if jumped then fin else (cur : Int) + 2
        pdn2 fuel r ((len &&& 0x3f) * 256 + bget r (cur + 1)) true fin' parts
      else
        let lbl := String.mk ((List.range len).map (fun i => Char.ofNat (bget r (cur + 1 + i))))
        let cur' := cur + 1 + len
        pdn2 fuel r cur' jumped (if jumped then fin else (cur' : Int)) (parts ++ [lbl])

/-- Variant 2 `parseDnsName` (源码.js 723-762); total by its iteration cap. -/
def parseDnsName2 (r : Buf) (off : Nat) : String × Int :=
  pdn2 21 r off false (-1) []

/-- Iteration core of `skipDnsName` (源码.js 245-254, 644-653, 1215-1233 and
part_000 403-412, all extensionally the same loop): advance past one encoded
name without decoding it.  The fuel only bounds the loop so the definition is
structural; see `skipDnsName` for why it is never exhausted. -/
def skipAux (r : Buf) : Nat → Nat → Nat
  | 0, cur => cur
  | fuel + 1, cur =>
    if cur < r.length then
      let len := bget r cur
      if len = 0 then cur + 1
      else if len &&& 0xc0 = 0xc0 then cur + 2
      else skipAux r fuel (cur + len + 1)
    else cur

/-- `skipDnsName` proper: the loop runs while the cursor is inside the buffer
and each ordinary label advances the cursor by at least two, so `r.length`
iterations always suffice and the fuel never runs out. -/
def skipDnsName (r : Buf) (cur : Nat) : Nat := skipAux r r.length cur

/-- The `type` field of a decoded answer: the JS code stores either the
mnemonic string from its `typeNames` table or the raw numeric code. -/
inductive TypeTag where
  | name (s : String)
  | code (n : Nat)
deriving Repr, DecidableEq

/-- One decoded resource record, as built by `parseDnsAnswer` (all variants
produce this shape). -/
structure Answer where
  name : String
  rrtype : TypeTag
  ttl : Nat
  data : Option String
  nextOffset : Nat
deriving Repr, DecidableEq

/-- The JSON object returned by `parseDnsResponse`, generic over the answer
record type.  Fields the JS object omits on a given branch are `none` / `[]`. -/
structure Outcome (α : Type) where
  domain : String
  rtype : String
  status : String
  error : Option String := none
  count : Option Nat := none
  answers : List α := []
deriving Repr, DecidableEq

/-- Lowercase hex rendering of a group, JS `n.toString(16)` (no padding). -/
def hexStr (n : Nat) : String := String.mk (Nat.toDigits 16 n)

/-- The zero-run scan of variant 1 `compressIPv6` (源码.js 343-364): the
maximum update happens on leaving a run and once more after the loop, so the
first maximal run wins.  State: (maxStart, maxLen) and (curStart, curLen),
with start -1 meaning no run. -/
def compressScan : List String → Nat → (Int × Nat) → (Int × Nat) → (Int × Nat)
  | [], _, (ms, ml), (cs, cl) => if cl > ml then (cs, cl) else (ms, ml)
  | p :: rest, i, (ms, ml), (cs, cl) =>
    if p = "0" then
      let st := if cs = -1 then ((i : Int), 1) else (cs, cl + 1)
      compressScan rest (i + 1) (ms, ml) st
    else
      let mx := if cl > ml then (cs, cl) else (ms, ml)
      compressScan rest (i + 1) mx (-1, 0)

/-- Variant 1 `compressIPv6` (源码.js 337-372): splices a single empty field
over the longest zero run, with no boundary handling and no colon-collapsing
afterwards. -/
def compressIPv61 (s : String) : String :=
  let parts := jsSplit s ':'
  let m := compressScan parts 0 (-1, 0) (-1, 0)
  if m.2 > 1 then
    String.intercalate ":" (parts.take m.1.toNat ++ [""] ++ parts.drop (m.1.toNat + m.2))
  else s

/-- The zero-run scan of variant 2 `parseIPv6` (源码.js 698-711): the best run
is updated inside the zero branch whenever the current run gets longer. -/
def pscan : List String → Nat → (Int × Nat) → (Int × Nat) → (Int × Nat)
  | [], _, best, _ => best
  | p :: rest, i, (bs, bl), (cs, cl) =>
    if p = "0" then
      let cs' := if cs = -1 then (i : Int) else cs
      let cl' := cl + 1
      let best' := if cl' > bl then (cs', cl') else (bs, bl)
      pscan rest (i + 1) best' (cs', cl')
    else pscan rest (i + 1) (bs, bl) (-1, 0)

/-- First-match-only replacement of a run of three or more colons by "::",
JS `.replace(/:{3,}/, "::")`: the regex is unanchored and greedy, so the
first position with three consecutive colons has its whole colon run
replaced, and the rest of the string is untouched. -/
def collapseAux : List Char → List Char
  | ':' :: ':' :: ':' :: rest => ':' :: ':' :: rest.dropWhile (· = ':')
  | c :: rest => c :: collapseAux rest
  | [] => []

/-- String wrapper for `collapseAux`. -/
def collapse3 (s : String) : String := String.mk (collapseAux s.data)

/-- Variant 2 `parseIPv6` (源码.js 690-721): eight hex groups, longest zero
run of length > 1 spliced to an empty field, an extra empty field pushed at a
touched boundary, joined by ":" and passed through the colon collapse. -/
def parseIPv6 (r : Buf) (off : Nat) : String :=
  let parts := (List.range 8).map
    (fun i => hexStr ((bget r (off + i * 2)) <<< 8 ||| bget r (off + i * 2 + 1)))
  let b := pscan parts 0 (-1, 0) (-1, 0)
  if b.2 > 1 then
    let spliced := parts.take b.1.toNat ++ [""] ++ parts.drop (b.1.toNat + b.2)
    let withStart := if b.1 = 0 then "" :: spliced else spliced
    let withEnd := if b.1.toNat + b.2 = 8 then withStart ++ [""] else withStart
    collapse3 (String.intercalate ":" withEnd)
  else collapse3 (String.intercalate ":" parts)

/-- One TXT character-string: JS `String.fromCharCode(...response.slice(start,
start + len))`; slice clamps at the end of the buffer. -/
def chunkAt (r : Buf) (start len : Nat) : String :=
  String.mk (((r.drop start).take len).map Char.ofNat)

/-- The TXT accumulation loop of `parseRecordData` case 16 (源码.js 316-326
and part_000 474-484): chunks are appended with a space separator once the
accumulator is nonempty, stopping at a zero-length chunk or one that would
overrun the RDATA bound. -/
def txtAux (r : Buf) (bound : Nat) : Nat → Nat → String → String
  | 0, _, acc => acc
  | fuel + 1, txtOff, acc =>
    if txtOff < bound then
      if bget r txtOff = 0 ∨ txtOff + 1 + bget r txtOff > bound then acc
      else
        txtAux r bound fuel (txtOff + 1 + bget r txtOff)
          (acc ++ (if acc = "" then "" else " ") ++ chunkAt r (txtOff + 1) (bget r txtOff))
    else acc

/-- `txtLoop1` proper: the cursor advances by at least two while below
`bound`, so `bound` iterations of fuel are never exhausted. -/
def txtLoop1 (r : Buf) (txtOff bound : Nat) (acc : String) : String :=
  txtAux r bound bound txtOff acc

/-- The dotted-quad string of an A record, from the template literal in
源码.js 302 (and 671, 1157). -/
def ipv4Str (r : Buf) (o : Nat) : String :=
  jsIdxStr r o ++ "." ++ jsIdxStr r (o + 1) ++ "." ++ jsIdxStr r (o + 2) ++ "." ++ jsIdxStr r (o + 3)

/-- Variant 1 `typeNames` lookup (源码.js 269): mnemonic for known codes,
the raw code otherwise. -/
def typeName1 (ty : Nat) : TypeTag :=
  if ty = 1 then .name "A" else if ty = 28 then .name "AAAA"
  else if ty = 5 then .name "CNAME" else if ty = 2 then .name "NS"
  else if ty = 16 then .name "TXT" else if ty = 15 then .name "MX"
  else .code ty

/-- Variant 1 `parseRecordData` (源码.js 298-335, identical in part_000
456-493).  Outer `none` = a name parse inside ran out of fuel; `some none` =
the JS returns null; `some (some s)` = the decoded string. -/
def parseRecordData1 (fuel : Nat) (r : Buf) (off ty rdlength : Nat) : Option (Option String) :=
  if ty = 1 then
    if rdlength ≠ 4 then some none else some (some (ipv4Str r off))
  else if ty = 28 then
    if rdlength ≠ 16 then some none
    else
      let parts := (List.range 8).map
        (fun i => hexStr ((bget r (off + i * 2)) <<< 8 ||| bget r (off + i * 2 + 1)))
      some (some (compressIPv61 (String.intercalate ":" parts)))
  else if ty = 5 ∨ ty = 2 then
    match parseDnsName1 fuel r off with
    | none => none
    | some none => some none
    | some (some (nm, _)) => some (some nm)
  else if ty = 16 then some (some (txtLoop1 r off (off + rdlength) ""))
  else if ty = 15 then
    if rdlength < 2 then some none
    else
      match parseDnsName1 fuel r (off + 2) with
      | none => none
      | some none => some none
      | some (some (nm, _)) =>
          some (some (toString ((bget r off) <<< 8 ||| bget r (off + 1)) ++ " " ++ nm))
  else some none

/-- Variant 1 `parseDnsAnswer` (源码.js 256-271, identical in part_000
414-429): every read is bounds-checked before it happens, so the function
returns `some none` (JS null) on any malformed record and never throws. -/
def parseDnsAnswer1 (fuel : Nat) (r : Buf) (off : Nat) : Option (Option Answer) :=
  if off ≥ r.length then some none
  else
    match parseDnsName1 fuel r off with
    | none => none
    | some none => some none
    | some (some (nm, noff)) =>
      if noff + 10 > r.length then some none
      else
        let ty := getU16 r noff
        let ttl := getU32 r (noff + 4)
        let rdlength := getU16 r (noff + 8)
        let o := noff + 10
        if o + rdlength > r.length then some none
        else
          match parseRecordData1 fuel r o ty rdlength with
          | none => none
          | some data =>
              some (some ⟨nm, typeName1 ty, ttl, data, o + rdlength⟩)

/-- The answer loop of variant 1 `parseDnsResponse` (源码.js 233-241): up to
`ancount` records, stopping when the offset reaches the end of the buffer or
a record fails to parse, keeping the records decoded so far in wire order. -/
def answerLoop1 (fuel : Nat) (r : Buf) : Nat → Nat → Option (List Answer)
  | 0, _ => some []
  | n + 1, off =>
    if off < r.length then
      match parseDnsAnswer1 fuel r off with
      | none => none
      | some none => some []
      | some (some a) => (answerLoop1 fuel r n a.nextOffset).map (a :: ·)
    else some []

/-- Variant 1 `parseDnsResponse` (源码.js 221-243, identical in part_000
379-401): note that the question section is skipped exactly once
(`skipDnsName(response, 12) + 4`), not qdcount times. -/
def parseDnsResponse1 (fuel : Nat) (r : Buf) (domain rtype : String) :
    Option (Outcome Answer) :=
  if r.length < 12 then
    some { domain := domain, rtype := rtype, status := "error",
           error := some "Invalid DNS response" }
  else
    let rcode := getU16 r 2 &&& 0x0f
    if rcode ≠ 0 then
      some { domain := domain, rtype := rtype, status := "error",
             error := some ("DNS error code: " ++ toString rcode) }
    else
      let ancount := getU16 r 6
      if ancount = 0 then
        some { domain := domain, rtype := rtype, status := "no_records" }
      else
        (answerLoop1 fuel r ancount (skipDnsName r 12 + 4)).map
          (fun answers =>
            { domain := domain, rtype := rtype, status := "success",
              count := some ancount, answers := answers })

/-- Variant 2 `typeMap` lookup (源码.js 679). -/
def typeTag2 (ty : Nat) : TypeTag :=
  if ty = 1 then .name "A" else if ty = 28 then .name "AAAA"
  else if ty = 5 then .name "CNAME" else .code ty

/-- Variant 2 `parseDnsAnswer` (源码.js 655-688): `parseDnsName` at 723-762
never returns null, so the `if(!nameRes) return null` guard is dead and the
function either throws (a DataView read out of range, since no bounds are
checked before reading type, ttl and rdlength, and `nextOffset` may be -1) or
returns a record.  The RDATA reads themselves are plain indexing, which never
throws. -/
def parseDnsAnswer2 (r : Buf) (off : Nat) : Except Unit Answer :=
  let nres := parseDnsName2 r off
  do
    let ty ← dvGetU16 r nres.2
    let ttl ← dvGetU32 r (nres.2 + 4)
    let dataLen ← dvGetU16 r (nres.2 + 8)
    let cur : Nat := (nres.2 + 10).toNat
    let data : Option String :=
      if ty = 1 ∧ dataLen = 4 then some (ipv4Str r cur)
      else if ty = 28 ∧ dataLen = 16 then some (parseIPv6 r cur)
      else if ty = 5 then some (parseDnsName2 r cur).1
      else none
    .ok ⟨nres.1, typeTag2 ty, ttl, data, cur + dataLen⟩

/-- The answer loop of variant 2 `parseDnsResponse` (源码.js 631-639): same
loop as variant 1, but a record failure is a thrown exception rather than a
null, so the else-break branch is unreachable. -/
def answerLoop2 (r : Buf) : Nat → Nat → Except Unit (List Answer)
  | 0, _ => .ok []
  | n + 1, off =>
    if off < r.length then do
      let a ← parseDnsAnswer2 r off
      let rest ← answerLoop2 r n a.nextOffset
      .ok (a :: rest)
    else .ok []

/-- The question-skip loop of variant 2 `parseDnsResponse` (源码.js 626-628):
`offset = skipDnsName(response, offset) + 4`, repeated qdcount times. -/
def skipQuestions (r : Buf) : Nat → Nat → Nat
  | 0, off => off
  | q + 1, off => skipQuestions r q (skipDnsName r off + 4)

/-- Variant 2 `parseDnsResponse` (源码.js 607-642): an `Except.error` result
is an exception escaping to the caller (there is no try/catch on this path). -/
def parseDnsResponse2 (r : Buf) (domain rtype : String) : Except Unit (Outcome Answer) :=
  if r.length < 12 then
    .ok { domain := domain, rtype := rtype, status := "error" }
  else
    let rcode := getU16 r 2 &&& 0x0f
    if rcode ≠ 0 then
      .ok { domain := domain, rtype := rtype, status := "error" }
    else
      let qcount := getU16 r 4
      let ancount := getU16 r 6
      if ancount = 0 then
        .ok { domain := domain, rtype := rtype, status := "no_records" }
      else do
        let answers ← answerLoop2 r ancount (skipQuestions r qcount 12)
        .ok { domain := domain, rtype := rtype, status := "success",
              count := some ancount, answers := answers }

/-!  Message Encoder. -/

/-- The `typeCodes` table of variants 1 and 2 (源码.js 177, 566, part_000 335). -/
def typeCodes1 (s : String) : Option Nat :=
  if s = "A" then some 1 else if s = "AAAA" then some 28
  else if s = "CNAME" then some 5 else if s = "NS" then some 2
  else if s = "TXT" then some 16 else if s = "MX" then some 15
  else none

/-- The smaller `typeCodes` table of variant 3 (源码.js 1005-1010), with no
toUpperCase applied to the key. -/
def typeCodes3 (s : String) : Option Nat :=
  if s = "A" then some 1 else if s = "AAAA" then some 28
  else if s = "CNAME" then some 5 else if s = "NS" then some 2
  else none

/-- Decimal fragment of the JS `!isNaN(x)` test followed by `parseInt(x)`: a
nonempty all-digit string is numeric with its decimal value, anything else is
treated as NaN.  This coincides with the full JS semantics exactly on two
families of inputs: strings of ASCII letters other than "Infinity" (where
`Number` gives NaN) and all-digit strings whose value is below 2^53 (where
both `Number` and `parseInt` are exact); hex, exponent, signed, whitespace,
fractional and other numeric forms, and values needing rounding, are outside
the model.  Every theorem below that quantifies over this function carries
hypotheses confining it to those two families. -/
def jsDigits? (s : String) : Option Nat :=
  if s ≠ "" ∧ s.data.all (fun c => c.isDigit) then
    some (s.data.foldl (fun a c => a * 10 + (c.toNat - 48)) 0)
  else none

/-- JS `parseInt` restricted to its decimal branch: the maximal leading
digit prefix, NaN (`none`) when there is none.  This coincides with the full
`parseInt` on inputs without leading whitespace, sign or a 0x prefix -- in
particular on all-letter strings (NaN) and on all-digit strings below 2^53
(exact); the theorems below only evaluate it on those. -/
def jsParseInt? (s : String) : Option Nat :=
  if s.data.takeWhile (fun c => c.isDigit) = [] then none
  else some ((s.data.takeWhile (fun c => c.isDigit)).foldl
    (fun a c => a * 10 + (c.toNat - 48)) 0)

/-- Record-type resolution of variant 1 `buildDnsQuery` (源码.js 177-180):
table lookup on the uppercased mnemonic, then `parseInt` only when the input
is numeric, with a final falsiness check rejecting 0/NaN/undefined. -/
def resolveType1 (rt : String) : Option Nat :=
  match typeCodes1 (jsToUpper rt) with
  | some c => some c
  | none =>
    match jsDigits? rt with
    | some n => if n = 0 then none else some n
    | none => none

/-- Record-type resolution of variant 2 `buildDnsQuery` (源码.js 568-570):
`typeCodes[...] || parseInt(recordType)`, then the falsiness check. -/
def resolveType2 (rt : String) : Option Nat :=
  match typeCodes1 (jsToUpper rt) with
  | some c => some c
  | none =>
    match jsParseInt? rt with
    | some n => if n = 0 then none else some n
    | none => none

/-- Record-type resolution of variant 3 `buildDnsQuery` (源码.js 1011-1016):
numeric input is parsed, otherwise the (case-sensitive) table is consulted
with a default of 1; there is no failure path. -/
def resolveType3 (rt : String) : Nat :=
  match jsDigits? rt with
  | some n => n
  | none => (typeCodes3 rt).getD 1

/-- The 12-byte query header (源码.js 183-187): random id (here a parameter),
flags 0x0100, qdcount 1, remaining counts 0. -/
def header12 (id : Nat) : List Nat :=
  [id / 256 % 256, id % 256, 1, 0, 0, 1, 0, 0, 0, 0, 0, 0]

/-- Label bytes of variant 1 (源码.js 202-205): `charCodeAt` per position,
truncated to a byte by the Uint8Array store. -/
def labelBytes (s : String) : List Nat := s.data.map (fun c => c.toNat % 256)

/-- The encoded question name of variant 1 (源码.js 198-208): each label is
length-prefixed, then a zero terminator. -/
def qnameBytes (parts : List String) : List Nat :=
  (parts.map (fun p => p.length :: labelBytes p)).flatten ++ [0]

/-- Variant 1 `buildDnsQuery` (源码.js 176-219, identical in part_000
334-377), with the random 16-bit id as an explicit parameter.  Fails (JS
null) on an unresolvable record type or a label longer than 63. -/
def buildDnsQuery1 (id : Nat) (domain rtype : String) : Option (List Nat) :=
  match resolveType1 rtype with
  | none => none
  | some tc =>
    let parts := jsSplit domain '.'
    if parts.any (fun p => p.length > 63) then none
    else some (header12 id ++ qnameBytes parts ++ [tc / 256 % 256, tc % 256, 0, 1])

/-- UTF-8 encoding of one scalar value (the TextEncoder used by variant 2). -/
def utf8Bytes (c : Char) : List Nat :=
  let n := c.toNat
  if n < 0x80 then [n]
  else if n < 0x800 then [0xc0 + n / 64, 0x80 + n % 64]
  else if n < 0x10000 then [0xe0 + n / 4096, 0x80 + n / 64 % 64, 0x80 + n % 64]
  else [0xf0 + n / 262144, 0x80 + n / 4096 % 64, 0x80 + n / 64 % 64, 0x80 + n % 64]

/-- Variant 2 `buildDnsQuery` (源码.js 565-605): labels are UTF-8 encoded and
written with their byte count as length prefix, with no 63-byte check at all
(the Uint8Array store truncates the length to a byte). -/
def buildDnsQuery2 (id : Nat) (domain rtype : String) : Option (List Nat) :=
  match resolveType2 rtype with
  | none => none
  | some tc =>
    let parts := (jsSplit domain '.').map (fun p => (p.data.map utf8Bytes).flatten)
    some (header12 id ++ (parts.map (fun bs => bs.length % 256 :: bs)).flatten ++ [0] ++
          [tc / 256 % 256, tc % 256, 0, 1])

/-!  Upstream Resolver Pool.  A single upstream attempt is abstracted by its
observable outcome: the fetch resolves with an ok response carrying a payload
and a Cache-Control header, resolves with a non-2xx status, or rejects (a
transport error, or the AbortController firing at the timeout). -/

/-- Outcome of one upstream fetch attempt. -/
inductive Attempt where
  | success (payload : List Nat) (cacheControl : Option String)
  | httpError
  | thrown
deriving Repr, DecidableEq

/-- The payload a successful attempt would yield. -/
def attemptPayload : Attempt → Option (List Nat × Option String)
  | .success p cc => some (p, cc)
  | .httpError => none
  | .thrown => none

/-- 源码.js `forwardDnsQueryWithCacheControl` (511-540, and the same loop at
126-156): each upstream is tried in list order inside try/catch; a thrown
fetch is caught and the loop continues, a non-ok response falls through, the
first ok response returns its payload, and exhaustion returns null. -/
def forwardPool : List Attempt → Option (List Nat × Option String)
  | [] => none
  | .success p cc :: _ => some (p, cc)
  | .httpError :: rest => forwardPool rest
  | .thrown :: rest => forwardPool rest

/-- dns-proxy.js `handleDnsQuery` (79-153): the same ordered loop over
upstreams, but with no try/catch around `fetch`, so a rejected fetch (timeout
abort or transport error) propagates out of the handler; only a non-2xx
response advances to the next upstream; exhaustion returns the 502 (`ok
none`). -/
def proxyPool : List Attempt → Except Unit (Option (List Nat × Option String))
  | [] => .ok none
  | .success p cc :: _ => .ok (some (p, cc))
  | .httpError :: rest => proxyPool rest
  | .thrown :: _ => .error ()

/-!  Specification-side definitions (used to state properties, not taken from
the source). -/

/-- A question of the wire question section, for stating what a well-formed
question section looks like: raw label byte lists and a qtype. -/
structure Question where
  labels : List (List Nat)
  qtype : Nat

/-- Wire encoding of an uncompressed name: each label length-prefixed, then a
zero octet. -/
def encName (labels : List (List Nat)) : List Nat :=
  (labels.map (fun l => l.length :: l)).flatten ++ [0]

/-- Wire encoding of one question: name, then QTYPE and QCLASS=IN. -/
def encQuestion (q : Question) : List Nat :=
  encName q.labels ++ [q.qtype / 256 % 256, q.qtype % 256, 0, 1]

/-- Wire encoding of a question section. -/
def qsEnc (qs : List Question) : List Nat := (qs.map encQuestion).flatten

/-- Well-formed labels: nonempty and at most 63 bytes, so the length octet is
neither a terminator nor a compression pointer. -/
def wfLabels (labels : List (List Nat)) : Prop :=
  ∀ l ∈ labels, 0 < l.length ∧ l.length ≤ 63

/-- The answers list `l` is exactly a run of successfully parsed records
starting at `off`, each beginning where the previous one ended. -/
def chainFrom (fuel : Nat) (r : Buf) : Nat → List Answer → Prop
  | _, [] => True
  | off, a :: rest =>
    off < r.length ∧ parseDnsAnswer1 fuel r off = some (some a) ∧
      chainFrom fuel r a.nextOffset rest

/-- The offset just after a run of answers that started at `off`. -/
def chainEnd : Nat → List Answer → Nat
  | off, [] => off
  | _, a :: rest => chainEnd a.nextOffset rest

/-- The TXT character strings of an RDATA field, in order, stopping before a
zero-length chunk or one overrunning the bound. -/
def txtChunksAux (r : Buf) (bound : Nat) : Nat → Nat → List String
  | 0, _ => []
  | fuel + 1, off =>
    if off < bound then
      if bget r off = 0 ∨ off + 1 + bget r off > bound then []
      else chunkAt r (off + 1) (bget r off) :: txtChunksAux r bound fuel (off + 1 + bget r off)
    else []

/-- The TXT character strings with the fuel fixed to the bound, mirroring
`txtLoop1`. -/
def txtChunks (r : Buf) (off bound : Nat) : List String :=
  txtChunksAux r bound bound off

/-- Strings each prefixed by one space, concatenated. -/
def prep : List String → String
  | [] => ""
  | c :: rest => " " ++ c ++ prep rest

/-- Strings joined by single spaces. -/
def joinSp : List String → String
  | [] => ""
  | c :: rest => c ++ prep rest

/-!  Concrete buffers used as failing inputs and witnesses. -/

/-- A 13-byte response: zero id and flags (RCODE 0), qdcount 0, ancount 1,
then a single zero octet (an empty answer name with nothing after it). -/
def c2buf : Buf := [0, 0, 0, 0, 0, 0, 0, 1, 0, 0, 0, 0, 0]

/-- The question `a. IN A` as a `Question`. -/
def qA : Question := ⟨[[97]], 1⟩

/-- A response with qdcount 2 (two `a. IN A` questions) and one A answer
record placed after them. -/
def c3buf : Buf :=
  [0, 0, 0x81, 0x80, 0, 2, 0, 1, 0, 0, 0, 0] ++ qsEnc [qA, qA] ++
  [192, 12, 0, 1, 0, 1, 0, 0, 0, 60, 0, 4, 1, 2, 3, 4]

/-- A well-formed A record whose name is a pointer to offset 12. -/
def goodA : List Nat := [192, 12, 0, 1, 0, 1, 0, 0, 0, 60, 0, 4, 1, 2, 3, 4]

/-- A response claiming ancount 3, with a `www. IN A` question, two parseable
A records, and a trailing byte 5 that begins an unparseable third record. -/
def c4bad : Buf :=
  [0, 0, 0x81, 0x80, 0, 1, 0, 3, 0, 0, 0, 0] ++
  [3, 119, 119, 119, 0, 0, 1, 0, 1] ++ goodA ++ goodA ++ [5]

/-!  Claim C1: pointer handling and termination of the Name Reader. -/

/-- On the buffer `[1, 97, 192, 0]` every pointer target is strictly below
the position of the pointer, yet variant 1 recurses forever: the walk from
offset 0 reads label "a", reaches the pointer at offset 2 whose target 0
passes the `pointer >= currentOffset` check, and restarts from 0. -/
lemma pdn1_cycle (n : Nat) :
    ∀ parts, pdn1 n [1, 97, 192, 0] 0 parts = none ∧
      pdn1 n [1, 97, 192, 0] 2 parts = none := by
  induction n with
  | zero => exact fun _ => ⟨rfl, rfl⟩
  | succ n ih =>
    intro parts
    refine ⟨(ih _).2, ?_⟩
    have h := (ih []).1
    have e : (192 &&& 63) * 256 = 0 := by decide
    simp [pdn1, bget, e, h]

/-- Variant 3 follows the self-pointer `[192, 0]` at offset 0 straight back
to offset 0, recursing forever. -/
lemma pdn3_self (n : Nat) : ∀ parts, pdn3 n [192, 0] 0 parts = none := by
  induction n with
  | zero => exact fun _ => rfl
  | succ n ih =>
    intro parts
    have h := ih []
    have e : (192 &&& 63) * 256 = 0 := by decide
    simp [pdn3, bget, e, h]

/-- Claim C1: false of the code.  The 273-296 variant does reject a pointer
whose target is at or beyond its own position (last conjunct, target 2 at
position 0), but the 1178-1213 variant has no pointer guard and diverges on
the self-pointer `[0xc0, 0x00]`; the 273-296 variant itself still diverges
on `[1, 97, 0xc0, 0x00]`, a cycle all of whose pointers point strictly
backwards; and the 723-762 variant follows the self-pointer without failing,
returning a successfully decoded empty name (its iteration cap is what stops
it). -/
theorem c1_thm :
    (∀ n, parseDnsName3 n [192, 0] 0 = none) ∧
    (∀ n, parseDnsName1 n [1, 97, 192, 0] 0 = none) ∧
    parseDnsName2 [192, 0] 0 = ("", 2) ∧
    parseDnsName1 5 [192, 2, 0] 0 = some none :=
  ⟨fun n => pdn3_self n [], fun n => (pdn1_cycle n []).1, rfl, rfl⟩

/-!  Claim C2: totality of the decoder. -/

/-- Claim C2: false of the code.  On `c2buf` the 607-642 decoder reaches
`parseDnsAnswer` (655-688), whose unguarded `view.getUint16(current)` reads
two bytes at offset 13 of a 13-byte buffer and throws a RangeError that
escapes the decoder; the 221-243 decoder returns a structured value on the
same input. -/
theorem c2_thm :
    parseDnsResponse2 c2buf "example.com" "A" = .error () ∧
    parseDnsResponse1 1 c2buf "example.com" "A" =
      some { domain := "example.com", rtype := "A", status := "success",
             count := some 1, answers := [] } :=
  ⟨rfl, rfl⟩

/-!  Claim C7: IPv6 canonicalization. -/

/-- Claim C7: the 690-721 canonicalizer handles the boundary cases as claimed
(all-zero renders as "::", the 2001:db8...1 example renders as
"2001:db8::1", a run ending at group 8 yields a trailing "::"), but the
337-372 `compressIPv6` used by variant 1's AAAA path has no boundary
handling: the all-zero address renders as the empty string and ::1 renders
as ":1". -/
theorem c7_thm :
    parseIPv6 (List.replicate 16 0) 0 = "::" ∧
    parseIPv6 [0x20, 0x01, 0x0d, 0xb8, 0, 0, 0, 0, 0, 0, 0, 0, 0, 0, 0, 1] 0 =
      "2001:db8::1" ∧
    parseIPv6 [0, 1, 0, 0, 0, 0, 0, 0, 0, 0, 0, 0, 0, 0, 0, 0] 0 = "1::" ∧
    compressIPv61 "0:0:0:0:0:0:0:0" = "" ∧
    compressIPv61 "0:0:0:0:0:0:0:1" = ":1" ∧
    parseRecordData1 1 (List.replicate 16 0) 0 28 16 = some (some "") :=
  ⟨rfl, rfl, rfl, rfl, rfl, rfl⟩

/-!  Claim C9: the upstream resolver pool. -/

/-- The catching pool returns exactly the payload of the first successful
attempt, and fails only when no attempt succeeds. -/
lemma forwardPool_eq_findSome? (l : List Attempt) :
    forwardPool l = l.findSome? attemptPayload := by
  induction l with
  | nil => rfl
  | cons a rest ih => cases a <;> simp [forwardPool, attemptPayload, ih]

/-- Claim C9: the 511-540 pool in 源码.js implements ordered fallback exactly
-- its result is the payload of the first successful attempt, `none` only
when every attempt failed -- but the dns-proxy.js 79-153 loop, with no
try/catch around `fetch`, propagates a thrown first attempt (timeout or
transport error) as an exception even though a second upstream would have
succeeded. -/
theorem c9_thm :
    (∀ l : List Attempt, forwardPool l = l.findSome? attemptPayload) ∧
    proxyPool [Attempt.thrown, Attempt.success [0, 1] none] = .error () :=
  ⟨forwardPool_eq_findSome?, rfl⟩

/-!  Claims C10 and C5: the Message Encoder. -/

/-- On a resolvable type and short labels, the 176-219 builder returns
header, length-prefixed labels with terminator, and QTYPE/QCLASS. -/
lemma buildDnsQuery1_some (id : Nat) (dom rt : String) (tc : Nat)
    (hrt : resolveType1 rt = some tc)
    (hl : (jsSplit dom '.').any (fun p => p.length > 63) = false) :
    buildDnsQuery1 id dom rt =
      some (header12 id ++ qnameBytes (jsSplit dom '.') ++
        [tc / 256 % 256, tc % 256, 0, 1]) := by
  unfold buildDnsQuery1
  rw [hrt]
  simp [hl]

/-- The 176-219 builder rejects a domain containing an overlong label. -/
lemma buildDnsQuery1_long (id : Nat) (dom rt : String) (tc : Nat)
    (hrt : resolveType1 rt = some tc)
    (hl : (jsSplit dom '.').any (fun p => p.length > 63) = true) :
    buildDnsQuery1 id dom rt = none := by
  unfold buildDnsQuery1
  rw [hrt]
  simp [hl]

/-- Length of the encoded question name: one length octet per label plus the
label itself, plus the terminator. -/
lemma qnameBytes_length (parts : List String) :
    (qnameBytes parts).length = (parts.map (fun p => p.length + 1)).sum + 1 := by
  unfold qnameBytes
  rw [List.length_append, List.length_flatten, List.map_map]
  congr 2
  apply List.map_congr_left
  intro p _
  simp [labelBytes]

/-- Claim C10: two packets built from the same domain and record type have
equal length and agree byte for byte from index 2 on; only the two random id
bytes can differ. -/
theorem c10_thm (id1 id2 : Nat) (dom rt : String) (p1 p2 : List Nat)
    (h1 : buildDnsQuery1 id1 dom rt = some p1)
    (h2 : buildDnsQuery1 id2 dom rt = some p2) :
    p1.length = p2.length ∧ p1.drop 2 = p2.drop 2 := by
  cases hrt : resolveType1 rt with
  | none => unfold buildDnsQuery1 at h1; rw [hrt] at h1; cases h1
  | some tc =>
    cases hl : (jsSplit dom '.').any (fun p => p.length > 63) with
    | true => rw [buildDnsQuery1_long id1 dom rt tc hrt hl] at h1; cases h1
    | false =>
      rw [buildDnsQuery1_some id1 dom rt tc hrt hl] at h1
      rw [buildDnsQuery1_some id2 dom rt tc hrt hl] at h2
      injection h1 with h1
      injection h2 with h2
      subst h1; subst h2
      exact ⟨by simp [header12], by simp [header12]⟩

/-- Witness for C10 at ids 0 and 65534, domain example.com, type A. -/
theorem c10_thm_w :
    ((buildDnsQuery1 0 "example.com" "A").getD []).length =
      ((buildDnsQuery1 65534 "example.com" "A").getD []).length ∧
    ((buildDnsQuery1 0 "example.com" "A").getD []).drop 2 =
      ((buildDnsQuery1 65534 "example.com" "A").getD []).drop 2 :=
  c10_thm 0 65534 "example.com" "A" _ _ rfl rfl

/-- Claim C5, amended positive part: on a domain all of whose labels are at
most 63 long and a record type that resolves, the 176-219 builder succeeds
and its packet length is exactly 12 + sum of (label length + 1) + 1 + 4. -/
theorem c5_thm (id : Nat) (domain rtype : String) (tc : Nat)
    (hrt : resolveType1 rtype = some tc)
    (hlab : ∀ p ∈ jsSplit domain '.', p.length ≤ 63) :
    ∃ pkt, buildDnsQuery1 id domain rtype = some pkt ∧
      pkt.length = 12 + ((jsSplit domain '.').map (fun p => p.length + 1)).sum + 1 + 4 := by
  have hany : ((jsSplit domain '.').any (fun p => p.length > 63)) = false := by
    rw [List.any_eq_false]
    intro p hp
    simpa using Nat.not_lt.mpr (hlab p hp)
  refine ⟨_, buildDnsQuery1_some id domain rtype tc hrt hany, ?_⟩
  rw [List.length_append, List.length_append, qnameBytes_length]
  simp [header12]
  omega

/-- Witness for C5 at id 7, example.com, type A. -/
theorem c5_thm_w :
    ∃ pkt, buildDnsQuery1 7 "example.com" "A" = some pkt ∧
      pkt.length = 12 + ((jsSplit "example.com" '.').map (fun p => p.length + 1)).sum + 1 + 4 :=
  c5_thm 7 "example.com" "A" 1 rfl (by decide)

/-- A domain consisting of one 64-byte label. -/
def dom64 : String := String.mk (List.replicate 64 'a')

/-- Claim C5, counterexample: the 565-605 builder performs no label length
check at all, so on a domain whose single label is 64 bytes long it still
returns a packet (the claim says any label longer than 63 bytes is
rejected); the 176-219 builder does reject it. -/
theorem c5_cex :
    (∃ p ∈ jsSplit dom64 '.', 63 < p.length) ∧
    (buildDnsQuery2 0 dom64 "A").isSome = true ∧
    buildDnsQuery1 0 dom64 "A" = none :=
  ⟨⟨dom64, by decide, by decide⟩, by decide, by decide⟩

/-!  Claim C6: record-type resolution. -/

/-- Claim C6, counterexample: no variant's table contains SRV; "SRV" fails
(null) through the 177-180 and 568-570 resolutions, and the 1011-1016
resolution silently maps it (like every unknown mnemonic) to 1, the A code. -/
theorem c6_cex :
    resolveType1 "SRV" = none ∧ resolveType2 "SRV" = none ∧ resolveType3 "SRV" = 1 :=
  ⟨rfl, rfl, rfl⟩


/-- An ASCII letter is not a decimal digit. -/
lemma isDigit_false_of_isAlpha (c : Char) (h : c.isAlpha = true) : c.isDigit = false := by
  simp [Char.isAlpha] at h
  simp [Char.isDigit, Char.le_def, Char.toNat]
  intro h1
  show (57 : UInt32).toNat < c.val.toNat
  have h57 : (57 : UInt32).toNat = 57 := rfl
  cases h with
  | inl hu =>
    simp [Char.isUpper, Char.le_def, Char.toNat] at hu
    have h65 : (65 : Nat) ≤ c.val.toNat := hu.1
    omega
  | inr hl =>
    simp [Char.isLower, Char.le_def, Char.toNat] at hl
    have h97 : (97 : Nat) ≤ c.val.toNat := hl.1
    omega

/-- On a nonempty all-letter string the decimal test fails, as the JS
`isNaN` test does on every such string other than "Infinity". -/
lemma jsDigits?_none_of_alpha (rt : String) (h1 : rt.data ≠ [])
    (h2 : rt.data.all (fun c => c.isAlpha) = true) : jsDigits? rt = none := by
  unfold jsDigits?
  rw [if_neg]
  rintro ⟨-, hall⟩
  obtain ⟨c, hc⟩ := List.exists_mem_of_ne_nil rt.data h1
  have ha := List.all_eq_true.mp h2 c hc
  have hd := List.all_eq_true.mp hall c hc
  rw [isDigit_false_of_isAlpha c ha] at hd
  cases hd

/-- On an all-letter string `parseInt` finds no digit prefix. -/
lemma jsParseInt?_none_of_alpha (rt : String)
    (h2 : rt.data.all (fun c => c.isAlpha) = true) : jsParseInt? rt = none := by
  have htk : rt.data.takeWhile (fun c => c.isDigit) = [] := by
    cases hd : rt.data with
    | nil => rfl
    | cons c cs =>
      rw [hd] at h2
      simp only [List.all_cons, Bool.and_eq_true] at h2
      rw [List.takeWhile_cons]
      rw [isDigit_false_of_isAlpha c h2.1]
      simp
  unfold jsParseInt?
  rw [htk]
  simp

/-- The whole of an all-digit character list is its own digit prefix. -/
lemma takeWhile_digits (l : List Char) (h : ∀ c ∈ l, c.isDigit = true) :
    l.takeWhile (fun c => c.isDigit) = l := by
  induction l with
  | nil => rfl
  | cons c cs ih =>
    rw [List.takeWhile_cons, if_pos (h c (by simp))]
    rw [ih (fun x hx => h x (by simp [hx]))]

/-- Claim C6, amended: the tables are A=1, AAAA=28, CNAME=5, NS=2, TXT=16,
MX=15 (variants 1 and 2) with no SRV entry -- so "SRV" fails with
UnknownRecordType (null) through the 177-180 and 568-570 resolutions and is
silently mapped to 1 (A) by the 1004-1016 variant; any alphabetic mnemonic
(other than "Infinity", which JS treats as numeric) outside the tables
behaves the same way, null in variants 1 and 2 and the silent default 1 in
variant 3; and a nonzero unsigned-decimal input below 2^53 is used directly
by all three.  Numeric forms beyond unsigned decimals (hex, exponent, sign,
whitespace) are outside the numeric model and outside this statement. -/
theorem c6_thm (rt : String) (n : Nat) :
    (resolveType1 "A" = some 1 ∧ resolveType1 "AAAA" = some 28 ∧
     resolveType1 "CNAME" = some 5 ∧ resolveType1 "NS" = some 2 ∧
     resolveType1 "TXT" = some 16 ∧ resolveType1 "MX" = some 15 ∧
     resolveType1 "SRV" = none ∧ resolveType3 "SRV" = 1) ∧
    (rt.data ≠ [] → rt.data.all (fun c => c.isAlpha) = true → rt ≠ "Infinity" →
      typeCodes1 (jsToUpper rt) = none → typeCodes3 rt = none →
      resolveType1 rt = none ∧ resolveType2 rt = none ∧
      buildDnsQuery1 0 "example.com" rt = none ∧ resolveType3 rt = 1) ∧
    (rt.data ≠ [] → rt.data.all (fun c => c.isDigit) = true → n < 2 ^ 53 →
      jsDigits? rt = some n → 0 < n → typeCodes1 (jsToUpper rt) = none →
      resolveType1 rt = some n ∧ resolveType2 rt = some n ∧ resolveType3 rt = n) := by
  refine ⟨⟨rfl, rfl, rfl, rfl, rfl, rfl, rfl, rfl⟩, ?_, ?_⟩
  · intro h1 h2 _ ht1 ht3
    have hdg := jsDigits?_none_of_alpha rt h1 h2
    have hpi := jsParseInt?_none_of_alpha rt h2
    have hr1 : resolveType1 rt = none := by
      unfold resolveType1; rw [ht1, hdg]
    refine ⟨hr1, ?_, ?_, ?_⟩
    · unfold resolveType2; rw [ht1, hpi]
    · unfold buildDnsQuery1; rw [hr1]
    · unfold resolveType3; rw [hdg, ht3]; rfl
  · intro h1 h2 _ hdg hpos ht1
    have hne : rt ≠ "" := by
      intro he
      rw [he] at h1
      exact h1 rfl
    have hpi : jsParseInt? rt = some n := by
      have htk := takeWhile_digits rt.data (List.all_eq_true.mp h2)
      unfold jsParseInt?
      rw [htk, if_neg h1]
      unfold jsDigits? at hdg
      rw [if_pos ⟨hne, h2⟩] at hdg
      exact hdg
    have hnz := Nat.pos_iff_ne_zero.mp hpos
    refine ⟨?_, ?_, ?_⟩
    · unfold resolveType1; rw [ht1, hdg]; simp [hnz]
    · unfold resolveType2; rw [ht1, hpi]; simp [hnz]
    · unfold resolveType3; rw [hdg]

/-- Witness for C6, applying the amended theorem at the alphabetic mnemonic
"foo" and the decimal string "33". -/
theorem c6_thm_w :
    (resolveType1 "foo" = none ∧ resolveType2 "foo" = none ∧
     buildDnsQuery1 0 "example.com" "foo" = none ∧ resolveType3 "foo" = 1) ∧
    (resolveType1 "33" = some 33 ∧ resolveType2 "33" = some 33 ∧
     resolveType3 "33" = 33) :=
  ⟨(c6_thm "foo" 0).2.1 (by decide) (by decide) (by decide) rfl rfl,
   (c6_thm "33" 33).2.2 (by decide) (by decide) (by decide) rfl (by decide) rfl⟩

/-!  Claim C3: positioning at the answer section. -/

/-- A byte read at a position whose drop-suffix is known. -/
lemma bget_of_drop (r : Buf) (p x : Nat) (tl : List Nat) (h : r.drop p = x :: tl) :
    bget r p = x := by
  have h0 : (r.drop p)[0]? = some x := by rw [h]; simp
  rw [List.getElem?_drop] at h0
  simp only [Nat.add_zero] at h0
  simp [bget, List.getD_eq_getElem?_getD, h0]

/-- A nonempty drop-suffix puts the position inside the buffer. -/
lemma lt_length_of_drop (r : Buf) (p x : Nat) (tl : List Nat) (h : r.drop p = x :: tl) :
    p < r.length := by
  by_contra hc
  rw [List.drop_eq_nil_of_le (by omega)] at h
  cases h

/-- Unfolding of the name encoding on a leading label. -/
lemma encName_cons (l : List Nat) (ls : List (List Nat)) :
    encName (l :: ls) = l.length :: (l ++ encName ls) := by
  simp [encName]

/-- A label length of at most 63 is not the 0xc0 pointer tag. -/
lemma and192_of_le63 (n : Nat) (h : n ≤ 63) : n &&& 192 = 0 := by
  interval_cases n <;> rfl

/-- A well-formed encoded name is at least one byte longer than its label
count. -/
lemma encName_length_lower (labels : List (List Nat)) (hwf : wfLabels labels) :
    labels.length + 1 ≤ (encName labels).length := by
  induction labels with
  | nil => simp [encName]
  | cons l ls ih =>
    have hl := hwf l (by simp)
    have ihh := ih (fun x hx => hwf x (by simp [hx]))
    rw [encName_cons]
    simp only [List.length_cons, List.length_append]
    omega

/-- `skipAux` walks a well-formed encoded name in one step per label plus one
for the terminator, landing exactly after it. -/
lemma skipAux_enc (labels : List (List Nat)) :
    ∀ (fuel : Nat) (r : Buf) (p : Nat) (tail : List Nat), wfLabels labels →
      r.drop p = encName labels ++ tail → labels.length < fuel →
      skipAux r fuel p = p + (encName labels).length := by
  induction labels with
  | nil =>
    intro fuel r p tail _ henc hfuel
    cases fuel with
    | zero => omega
    | succ f =>
      have henc' : r.drop p = 0 :: tail := by simpa [encName] using henc
      have hp := lt_length_of_drop r p 0 tail henc'
      have hb := bget_of_drop r p 0 tail henc'
      unfold skipAux
      rw [if_pos hp, hb]
      simp [encName]
  | cons l ls ih =>
    intro fuel r p tail hwf henc hfuel
    cases fuel with
    | zero => simp at hfuel
    | succ f =>
      rw [encName_cons, List.cons_append] at henc
      have hp := lt_length_of_drop r p _ _ henc
      have hb := bget_of_drop r p _ _ henc
      have hl := hwf l (by simp)
      have hlen0 : l.length ≠ 0 := by omega
      have hptr : l.length &&& 192 ≠ 192 := by
        rw [and192_of_le63 l.length hl.2]
        omega
      have hdrop : r.drop (p + l.length + 1) = encName ls ++ tail := by
        have h1 : r.drop (p + l.length + 1) = (r.drop p).drop (l.length + 1) := by
          rw [List.drop_drop, Nat.add_assoc]
        rw [h1, henc, List.drop_succ_cons, List.append_assoc, List.drop_left]
      have hwf' : wfLabels ls := fun x hx => hwf x (by simp [hx])
      have hfuel' : ls.length < f := by simp at hfuel; omega
      unfold skipAux
      rw [if_pos hp, hb]
      rw [if_neg hlen0, if_neg hptr]
      rw [ih f r (p + l.length + 1) tail hwf' hdrop hfuel']
      rw [encName_cons]
      simp only [List.length_cons, List.length_append]
      omega

/-- `skipDnsName` on a buffer whose suffix at `p` is a well-formed encoded
name lands exactly after the name. -/
lemma skipDnsName_enc (labels : List (List Nat)) (r : Buf) (p : Nat) (tail : List Nat)
    (hwf : wfLabels labels) (henc : r.drop p = encName labels ++ tail) :
    skipDnsName r p = p + (encName labels).length := by
  have hlow := encName_length_lower labels hwf
  have hdl : (r.drop p).length = (encName labels).length + tail.length := by
    rw [henc]; simp
  have hfl : labels.length < r.length := by
    have := List.length_drop p r
    omega
  exact skipAux_enc labels r.length r p tail hwf henc hfl

/-- The question-section length of one encoded question. -/
lemma encQuestion_length (q : Question) :
    (encQuestion q).length = (encName q.labels).length + 4 := by
  simp [encQuestion]

/-- The skip loop of the 607-642 decoder, run once per question over a
well-formed question section, lands exactly at its end. -/
lemma skipQuestions_enc (qs : List Question) :
    ∀ (r : Buf) (off : Nat) (tail : List Nat), (∀ q ∈ qs, wfLabels q.labels) →
      r.drop off = qsEnc qs ++ tail →
      skipQuestions r qs.length off = off + (qsEnc qs).length := by
  induction qs with
  | nil =>
    intro r off tail _ _
    simp [skipQuestions, qsEnc]
  | cons q qs ih =>
    intro r off tail hwf henc
    have hq : qsEnc (q :: qs) = encQuestion q ++ qsEnc qs := by simp [qsEnc]
    rw [hq, encQuestion, List.append_assoc, List.append_assoc] at henc
    have hskip := skipDnsName_enc q.labels r off _ (hwf q (by simp)) henc
    have hdrop : r.drop (skipDnsName r off + 4) = qsEnc qs ++ tail := by
      rw [hskip]
      have h1 : r.drop (off + (encName q.labels).length + 4) =
          (r.drop off).drop ((encName q.labels).length + 4) := by
        rw [List.drop_drop, Nat.add_assoc]
      rw [h1, henc]
      have h2 : encName q.labels ++ ([q.qtype / 256 % 256, q.qtype % 256, 0, 1] ++
          (qsEnc qs ++ tail)) = (encName q.labels ++ [q.qtype / 256 % 256, q.qtype % 256, 0, 1])
          ++ (qsEnc qs ++ tail) := by simp
      rw [h2]
      have h3 : (encName q.labels).length + 4 =
          (encName q.labels ++ [q.qtype / 256 % 256, q.qtype % 256, 0, 1]).length := by simp
      rw [h3, List.drop_left]
    have := ih r (skipDnsName r off + 4) tail (fun x hx => hwf x (by simp [hx])) hdrop
    show skipQuestions r (qs.length + 1) off = off + (qsEnc (q :: qs)).length
    rw [skipQuestions, this, hskip, hq]
    simp [encQuestion_length]
    omega

/-- Claim C3, amended: in the 607-642 decoder the question section is skipped
exactly qdcount times, so on any response whose question section is
well-formed with qdcount matching, the answer loop starts exactly at the end
of the question section -- for every question count, including counts other
than 1. -/
theorem c3_thm (r : Buf) (qs : List Question) (tail : List Nat)
    (hwf : ∀ q ∈ qs, wfLabels q.labels)
    (hq : getU16 r 4 = qs.length)
    (henc : r.drop 12 = qsEnc qs ++ tail) :
    skipQuestions r (getU16 r 4) 12 = 12 + (qsEnc qs).length := by
  rw [hq]
  exact skipQuestions_enc qs r 12 tail hwf henc

/-- Witness for C3 on the concrete two-question buffer. -/
theorem c3_thm_w :
    skipQuestions c3buf (getU16 c3buf 4) 12 = 12 + (qsEnc [qA, qA]).length :=
  c3_thm c3buf [qA, qA] goodA
    (by
      intro q hq
      have hqa : wfLabels qA.labels := by unfold wfLabels; decide
      simp only [List.mem_cons, List.mem_singleton] at hq
      rcases hq with h | h | h <;> first | (rw [h]; exact hqa) | cases h)
    (by decide) (by decide)

/-- Claim C3, counterexample: on the same two-question buffer the 221-243
decoder (which computes `skipDnsName(response, 12) + 4` once, ignoring
qdcount) starts the answer loop at offset 19, inside the second question,
not at the answer-section start 26; it then decodes a garbage record (the
second question misread as an answer, with null data) where the 607-642
decoder, skipping qdcount times, decodes the real A record 1.2.3.4. -/
theorem c3_cex :
    getU16 c3buf 4 = 2 ∧
    skipDnsName c3buf 12 + 4 = 19 ∧
    12 + (qsEnc [qA, qA]).length = 26 ∧
    c3buf.drop 26 = goodA ∧
    (parseDnsResponse1 10 c3buf "a" "A").map (fun o => o.answers.map Answer.data) =
      some [none] ∧
    (parseDnsResponse2 c3buf "a" "A").toOption.map (fun o => o.answers.map Answer.data) =
      some [some "1.2.3.4"] := by
  refine ⟨by decide, by decide, by decide, by decide, by decide, by decide⟩

/-!  Claim C4: partial success with the header's claimed count. -/

/-- On a long-enough buffer with zero RCODE and nonzero ancount, the 221-243
decoder is the answer loop wrapped into a success outcome carrying the
header's ancount. -/
lemma parseDnsResponse1_success (fuel : Nat) (r : Buf) (d t : String)
    (h12 : ¬ r.length < 12) (hrc : getU16 r 2 &&& 0x0f = 0) (han : getU16 r 6 ≠ 0) :
    parseDnsResponse1 fuel r d t =
      (answerLoop1 fuel r (getU16 r 6) (skipDnsName r 12 + 4)).map
        (fun answers => { domain := d, rtype := t, status := "success",
                          count := some (getU16 r 6), answers := answers }) := by
  unfold parseDnsResponse1
  rw [if_neg h12]
  simp [hrc, han]

/-- What a `some` result of the answer loop means: the returned records chain
from the start offset in wire order, there are at most `n` of them, and if
fewer than `n` then the loop stopped because the cursor left the buffer or
the next record failed to parse. -/
lemma answerLoop1_spec (fuel : Nat) (r : Buf) :
    ∀ (n off : Nat) (l : List Answer), answerLoop1 fuel r n off = some l →
      chainFrom fuel r off l ∧ l.length ≤ n ∧
      (l.length < n → r.length ≤ chainEnd off l ∨
        parseDnsAnswer1 fuel r (chainEnd off l) = some none) := by
  intro n
  induction n with
  | zero =>
    intro off l h
    injection h with h
    subst h
    exact ⟨trivial, Nat.le_refl _, fun hlt => absurd hlt (by omega)⟩
  | succ n ih =>
    intro off l h
    unfold answerLoop1 at h
    by_cases hoff : off < r.length
    · rw [if_pos hoff] at h
      cases hpa : parseDnsAnswer1 fuel r off with
      | none => rw [hpa] at h; cases h
      | some oa =>
        cases oa with
        | none =>
          rw [hpa] at h
          injection h with h
          subst h
          exact ⟨trivial, Nat.zero_le _, fun _ => Or.inr hpa⟩
        | some a =>
          simp only [hpa] at h
          cases hrec : answerLoop1 fuel r n a.nextOffset with
          | none => rw [hrec] at h; cases h
          | some l' =>
            rw [hrec, Option.map_some', Option.some.injEq] at h
            subst h
            obtain ⟨hc, hle, hstop⟩ := ih a.nextOffset l' hrec
            refine ⟨⟨hoff, hpa, hc⟩, by simpa using Nat.succ_le_succ hle, ?_⟩
            intro hlt
            have hlt' : l'.length < n := by simp at hlt; omega
            simpa [chainEnd] using hstop hlt'
    · rw [if_neg hoff] at h
      injection h with h
      subst h
      exact ⟨trivial, Nat.zero_le _, fun _ => Or.inl (by simp [chainEnd]; omega)⟩

/-- Claim C4: for every response accepted by the 221-243 decoder's header
checks, the outcome is status success with count equal to the header's
ancount, and the answers are the wire-order run of parseable records,
stopping at the first bad record (or the end of the buffer) without
discarding earlier answers.  On the concrete response `c4bad` (ancount 3,
two parseable records, then garbage) the decoder reports success, count 3
and 2 answers -- while the 607-642 decoder throws on the same input,
discarding everything (the C2 bug). -/
theorem c4_thm :
    (∀ (fuel : Nat) (r : Buf) (d t : String) (out : Outcome Answer),
      parseDnsResponse1 fuel r d t = some out → 12 ≤ r.length →
      getU16 r 2 &&& 0x0f = 0 → 0 < getU16 r 6 →
      out.status = "success" ∧ out.count = some (getU16 r 6) ∧
      out.answers.length ≤ getU16 r 6 ∧
      chainFrom fuel r (skipDnsName r 12 + 4) out.answers ∧
      (out.answers.length < getU16 r 6 →
        r.length ≤ chainEnd (skipDnsName r 12 + 4) out.answers ∨
        parseDnsAnswer1 fuel r (chainEnd (skipDnsName r 12 + 4) out.answers) = some none)) ∧
    (parseDnsResponse1 100 c4bad "example.com" "A").map
      (fun o => (o.status, o.count, o.answers.length)) = some ("success", some 3, 2) ∧
    parseDnsResponse2 c4bad "example.com" "A" = .error () := by
  refine ⟨?_, by decide, by rfl⟩
  intro fuel r d t out hres h12 hrc han
  rw [parseDnsResponse1_success fuel r d t (by omega) hrc (by omega)] at hres
  cases hloop : answerLoop1 fuel r (getU16 r 6) (skipDnsName r 12 + 4) with
  | none => rw [hloop] at hres; cases hres
  | some l =>
    rw [hloop, Option.map_some', Option.some.injEq] at hres
    obtain ⟨hc, hle, hstop⟩ :=
      answerLoop1_spec fuel r (getU16 r 6) (skipDnsName r 12 + 4) l hloop
    subst hres
    exact ⟨rfl, rfl, hle, hc, hstop⟩

/-- The outcome the 221-243 decoder produces on `c4bad`. -/
def c4out : Outcome Answer :=
  (parseDnsResponse1 100 c4bad "example.com" "A").getD
    { domain := "", rtype := "", status := "" }

/-- Witness for C4, applying the general part at the concrete buffer. -/
theorem c4_thm_w :
    c4out.status = "success" ∧ c4out.count = some (getU16 c4bad 6) ∧
    c4out.answers.length ≤ getU16 c4bad 6 ∧
    chainFrom 100 c4bad (skipDnsName c4bad 12 + 4) c4out.answers ∧
    (c4out.answers.length < getU16 c4bad 6 →
      c4bad.length ≤ chainEnd (skipDnsName c4bad 12 + 4) c4out.answers ∨
      parseDnsAnswer1 100 c4bad (chainEnd (skipDnsName c4bad 12 + 4) c4out.answers) =
        some none) :=
  c4_thm.1 100 c4bad "example.com" "A" c4out rfl (by decide) (by decide) (by decide)

/-!  Claim C8: TXT RDATA decoding. -/

/-- Appending to a nonempty string stays nonempty. -/
lemma append_ne_empty (a b : String) (h : a ≠ "") : a ++ b ≠ "" := by
  intro hc
  apply h
  have hd : a.data ++ b.data = [] := congrArg String.data hc
  have ha : a.data = [] := by
    cases hda : a.data with
    | nil => rfl
    | cons c cs => rw [hda] at hd; cases hd
  cases a with
  | mk da => cases ha; rfl

/-- A chunk cut from inside the buffer with a nonzero length is nonempty. -/
lemma chunkAt_ne (r : Buf) (s len : Nat) (h1 : 1 ≤ len) (h2 : s < r.length) :
    chunkAt r s len ≠ "" := by
  intro hc
  have hd := congrArg String.data hc
  simp only [chunkAt] at hd
  have htake : ((r.drop s).take len) = [] := by
    cases htk : (r.drop s).take len with
    | nil => rfl
    | cons c cs => rw [htk] at hd; cases hd
  have hlen := congrArg List.length htake
  simp [List.length_take, List.length_drop] at hlen
  omega

/-- Running the TXT loop from a nonempty accumulator appends each remaining
chunk behind one space. -/
lemma txtAux_prep (r : Buf) (bound : Nat) :
    ∀ (fuel off : Nat) (acc : String), acc ≠ "" →
      txtAux r bound fuel off acc = acc ++ prep (txtChunksAux r bound fuel off) := by
  intro fuel
  induction fuel with
  | zero =>
    intro off acc _
    simp [txtAux, txtChunksAux, prep, String.append_empty]
  | succ fuel ih =>
    intro off acc hacc
    unfold txtAux txtChunksAux
    by_cases h1 : off < bound
    · rw [if_pos h1, if_pos h1]
      by_cases h2 : bget r off = 0 ∨ off + 1 + bget r off > bound
      · rw [if_pos h2, if_pos h2]
        simp [prep, String.append_empty]
      · rw [if_neg h2, if_neg h2, if_neg hacc]
        rw [ih (off + 1 + bget r off) _ (append_ne_empty _ _ (append_ne_empty _ _ hacc))]
        simp [prep, String.append_assoc]
    · rw [if_neg h1, if_neg h1]
      simp [prep, String.append_empty]

/-- Running the TXT loop from the empty accumulator produces exactly the
space-joined chunks, provided the RDATA bound lies inside the buffer (so the
first chunk cannot be silently clamped to empty). -/
lemma txtAux_joinSp (r : Buf) (bound : Nat) (hb : bound ≤ r.length) :
    ∀ (fuel off : Nat), txtAux r bound fuel off "" = joinSp (txtChunksAux r bound fuel off) := by
  intro fuel off
  cases fuel with
  | zero => rfl
  | succ fuel =>
    unfold txtAux txtChunksAux
    by_cases h1 : off < bound
    · rw [if_pos h1, if_pos h1]
      by_cases h2 : bget r off = 0 ∨ off + 1 + bget r off > bound
      · rw [if_pos h2, if_pos h2]; rfl
      · rw [if_neg h2, if_neg h2, if_pos rfl]
        push_neg at h2
        have hchunk : chunkAt r (off + 1) (bget r off) ≠ "" := by
          apply chunkAt_ne
          · omega
          · omega
        rw [String.empty_append, String.empty_append]
        rw [txtAux_prep r bound fuel (off + 1 + bget r off) _ hchunk]
        simp [joinSp]
    · rw [if_neg h1, if_neg h1]; rfl

/-- Claim C8, amended: for a TXT record whose RDATA lies inside the buffer,
the decoded string is its length-prefixed character strings joined by single
spaces (not plain concatenation), stopping before a zero-length chunk or one
overrunning the RDATA bound. -/
theorem c8_thm (fuel : Nat) (r : Buf) (off rdlen : Nat) (h : off + rdlen ≤ r.length) :
    parseRecordData1 fuel r off 16 rdlen =
      some (some (joinSp (txtChunks r off (off + rdlen)))) := by
  unfold parseRecordData1
  norm_num
  simp only [txtLoop1, txtChunks]
  rw [txtAux_joinSp r (off + rdlen) h]

/-- Witness for C8 on the two-chunk RDATA `[1, 'a', 1, 'b']`. -/
theorem c8_thm_w :
    parseRecordData1 1 [1, 97, 1, 98] 0 16 4 =
      some (some (joinSp (txtChunks [1, 97, 1, 98] 0 (0 + 4)))) :=
  c8_thm 1 [1, 97, 1, 98] 0 4 (by decide)

/-- Claim C8, counterexample: the TXT RDATA with the two character strings
"a" and "b" decodes to "a b" -- the 316-326 loop inserts a space between
chunks -- whereas the claimed concatenation is "ab". -/
theorem c8_cex :
    parseRecordData1 1 [1, 97, 1, 98] 0 16 4 = some (some "a b") ∧ "a b" ≠ "ab" :=
  ⟨rfl, by decide⟩
